import Mathlib

/-!
Verification of the Multithreaded-Downloader core against its
natural-language specification.

The development shallowly embeds the Go source:

* `downloader` package (`progress.go` part, `downloader.go`): `Part`,
  `Progress`, `CreateNewProgress`, `SaveProgress` (as a filesystem-operation
  trace), `Progress.IsComplete`, `VerifyDownload`, the body-copy loop of
  `downloadPart`, and the range probe `SupportsRange`.
* `main` package (`queue.go`, `server_queue.go`): `DownloadJob`, `JobStatus`,
  the Redis-backed queue state with `EnqueueJob`, `DequeueJob`, `CompleteJob`,
  `FailJob`, `UpdateJobProgress`, `GetQueueStats`, `CleanupStaleJobs`, and the
  HTTP intake handler `enqueueDownloadHandler`.

Machine integers (`int64`, `int`) are embedded as `Int`; Go's truncating
integer division is `Int.tdiv` (all uses here are on nonnegative operands).
`time.Time` values are embedded as `Nat` nanoseconds since the epoch, the Go
zero value being `0`; `time.Since(t)` at instant `now` is `now - t` (Go's
negative durations compare below any positive timeout exactly as truncated
`Nat` subtraction does in the comparisons used here).  The `float64`
`Progress` percentage field is embedded as `Rat`: the code only stores and
copies it, never computes with it.
-/

namespace Downloader

/-- One download part/chunk, from `type Part struct` in the downloader
package. -/
structure Part where
  Index : Int
  Start : Int
  End : Int
  Downloaded : Int
  Done : Bool
deriving DecidableEq, Inhabited, Repr

/-- The overall download state, from `type Progress struct`. -/
structure Progress where
  URL : String
  Filename : String
  TotalSize : Int
  Parts : List Part
  NumThreads : Int
deriving DecidableEq, Inhabited, Repr

/-- `CreateNewProgress` from the downloader package: splits `totalSize` bytes
into `numThreads` parts of `totalSize / numThreads` bytes each (Go truncating
`int64` division), the last part absorbing the remainder up to
`totalSize - 1`. -/
def CreateNewProgress (url filename : String) (totalSize : Int) (numThreads : Int) : Progress :=
  let partSize := totalSize.tdiv numThreads
  let parts := (List.range numThreads.toNat).map (fun (i : Nat) =>
    let start := (i : Int) * partSize
    let e := if (i : Int) = numThreads - 1 then totalSize - 1 else start + partSize - 1
    { Index := (i : Int), Start := start, End := e, Downloaded := 0, Done := false })
  { URL := url, Filename := filename, TotalSize := totalSize,
    Parts := parts, NumThreads := numThreads }

/-- Part number `i` of a progress record (Go slice indexing
`progress.Parts[i]`; all uses are guarded by `i < len(Parts)`). -/
def Progress.part (p : Progress) (i : Nat) : Part :=
  p.Parts.getD i default

/-- `IsComplete` from the downloader package: all parts are done. -/
def Progress.IsComplete (p : Progress) : Bool :=
  p.Parts.all (fun part => part.Done)

/-- `GetTotalDownloaded` from the downloader package. -/
def Progress.GetTotalDownloaded (p : Progress) : Int :=
  p.Parts.foldl (fun total part => total + part.Downloaded) 0

lemma CreateNewProgress_parts_length (u f : String) (ts n : Int) :
    (CreateNewProgress u f ts n).Parts.length = n.toNat := by
  unfold CreateNewProgress
  rw [List.length_map, List.length_range]

lemma CreateNewProgress_part_eq (u f : String) (ts n : Int) (i : Nat) (h : i < n.toNat) :
    (CreateNewProgress u f ts n).part i =
      { Index := (i : Int), Start := (i : Int) * ts.tdiv n,
        End := if (i : Int) = n - 1 then ts - 1
               else (i : Int) * ts.tdiv n + ts.tdiv n - 1,
        Downloaded := 0, Done := false } := by
  unfold CreateNewProgress Progress.part
  rw [List.getD_eq_getElem?_getD, List.getElem?_map, List.getElem?_range h]
  rfl

/-- Claim C2: for every `total_size >= 1` and thread count `N` with
`1 <= N <= total_size`, `CreateNewProgress` produces exactly `N` ranges whose
extents are contiguous, non-overlapping and cover `[0, total_size)` exactly:
range `i` starts at `i * (total_size / N)` (truncating division), every range
but the last has length `total_size / N`, and the final range ends at
`total_size - 1`, absorbing the remainder. -/
theorem C2_createNewProgress_partition (u f : String) (ts n : Int)
    (hts : 1 ≤ ts) (hn : 1 ≤ n) (hnts : n ≤ ts) :
    (CreateNewProgress u f ts n).Parts.length = n.toNat
    ∧ (∀ i : Nat, i < n.toNat →
        ((CreateNewProgress u f ts n).part i).Start = (i : Int) * ts.tdiv n)
    ∧ (∀ i : Nat, i + 1 < n.toNat →
        ((CreateNewProgress u f ts n).part i).End = ((i : Int) + 1) * ts.tdiv n - 1)
    ∧ ((CreateNewProgress u f ts n).part (n.toNat - 1)).End = ts - 1
    ∧ (∀ i : Nat, i + 1 < n.toNat →
        ((CreateNewProgress u f ts n).part (i + 1)).Start
          = ((CreateNewProgress u f ts n).part i).End + 1)
    ∧ (∀ i : Nat, i < n.toNat →
        ((CreateNewProgress u f ts n).part i).Start ≤ ((CreateNewProgress u f ts n).part i).End)
    ∧ (∀ i j : Nat, i < j → j < n.toNat →
        ((CreateNewProgress u f ts n).part i).End < ((CreateNewProgress u f ts n).part j).Start)
    ∧ (∀ i : Nat, i < n.toNat →
        0 ≤ ((CreateNewProgress u f ts n).part i).Start
          ∧ ((CreateNewProgress u f ts n).part i).End ≤ ts - 1)
    ∧ (∀ b : Int, 0 ≤ b → b < ts → ∃ i : Nat, i < n.toNat
        ∧ ((CreateNewProgress u f ts n).part i).Start ≤ b
        ∧ b ≤ ((CreateNewProgress u f ts n).part i).End) := by
  have hts0 : (0:Int) ≤ ts := by omega
  have hn0 : (0:Int) ≤ n := by omega
  have hcast_ts : ((ts.toNat : Int)) = ts := Int.toNat_of_nonneg hts0
  have hcast_n : ((n.toNat : Int)) = n := Int.toNat_of_nonneg hn0
  have hqdef : ts.tdiv n = ((ts.toNat / n.toNat : Nat) : Int) := by
    rw [Int.ofNat_tdiv, hcast_ts, hcast_n]
  have hN1 : 1 ≤ n.toNat := by omega
  have hTN : n.toNat ≤ ts.toNat := by omega
  have hq1 : 1 ≤ ts.toNat / n.toNat := (Nat.one_le_div_iff (by omega)).mpr hTN
  have hNq : ts.toNat / n.toNat * n.toNat ≤ ts.toNat := Nat.div_mul_le_self _ _
  -- Int versions
  have hq1i : (1:Int) ≤ ((ts.toNat / n.toNat : Nat) : Int) := by exact_mod_cast hq1
  have hNqi : ((ts.toNat / n.toNat : Nat) : Int) * n ≤ ts := by
    rw [← hcast_n, ← hcast_ts]
    exact_mod_cast hNq
  -- branch resolution for the `if` in the End field
  have hbranch : ∀ i : Nat, i < n.toNat → ((i : Int) = n - 1 ↔ i = n.toNat - 1) := by
    intro i hi
    omega
  -- start formula
  have hstart : ∀ i : Nat, i < n.toNat →
      ((CreateNewProgress u f ts n).part i).Start = (i : Int) * ts.tdiv n := by
    intro i hi
    rw [CreateNewProgress_part_eq u f ts n i hi]
  -- end formula, non-last
  have hendmid : ∀ i : Nat, i + 1 < n.toNat →
      ((CreateNewProgress u f ts n).part i).End = ((i : Int) + 1) * ts.tdiv n - 1 := by
    intro i hi
    rw [CreateNewProgress_part_eq u f ts n i (by omega)]
    have : ¬ ((i : Int) = n - 1) := by omega
    simp only [this, if_false]
    ring
  -- end formula, last
  have hendlast : ((CreateNewProgress u f ts n).part (n.toNat - 1)).End = ts - 1 := by
    rw [CreateNewProgress_part_eq u f ts n (n.toNat - 1) (by omega)]
    have : ((n.toNat - 1 : Nat) : Int) = n - 1 := by omega
    simp only [this, if_true]
  refine ⟨CreateNewProgress_parts_length u f ts n, hstart, hendmid, hendlast, ?_, ?_, ?_, ?_, ?_⟩
  · -- contiguity
    intro i hi
    rw [hstart (i+1) hi, hendmid i hi]
    push_cast
    ring
  · -- validity: Start ≤ End
    intro i hi
    rcases Nat.lt_or_ge (i+1) n.toNat with hlt | hge
    · rw [hstart i (by omega), hendmid i hlt, hqdef]
      have h1 : (0:Int) ≤ (i : Int) := by positivity
      nlinarith [hq1i]
    · have hieq : i = n.toNat - 1 := by omega
      rw [hieq, hstart _ (by omega), hendlast, hqdef]
      -- (N-1) * q ≤ ts - 1
      have hcast : ((n.toNat - 1 : Nat) : Int) = n - 1 := by omega
      rw [hcast]
      nlinarith [hq1i, hNqi]
  · -- non-overlap
    intro i j hij hj
    rw [hendmid i (by omega), hstart j hj, hqdef]
    have hij' : ((i : Int) + 1) ≤ (j : Int) := by exact_mod_cast hij
    nlinarith [hq1i]
  · -- in-bounds
    intro i hi
    constructor
    · rw [hstart i hi, hqdef]
      positivity
    · rcases Nat.lt_or_ge (i+1) n.toNat with hlt | hge
      · rw [hendmid i hlt, hqdef]
        have hi1 : ((i : Int) + 1) ≤ n - 1 := by omega
        nlinarith [hq1i, hNqi]
      · have hieq : i = n.toNat - 1 := by omega
        rw [hieq, hendlast]
  · -- coverage
    intro b hb0 hbts
    set T := ts.toNat with hTdef
    set N := n.toNat with hNdef
    set q := T / N with hqdef2
    have hbT : b.toNat < T := by omega
    have hbcast : ((b.toNat : Int)) = b := Int.toNat_of_nonneg hb0
    rcases Nat.lt_or_ge (b.toNat / q) (N - 1) with hsmall | hbig
    · -- use i := b.toNat / q, a non-last part
      refine ⟨b.toNat / q, by omega, ?_, ?_⟩
      · rw [hstart _ (by omega), hqdef]
        have h1 : b.toNat / q * q ≤ b.toNat := Nat.div_mul_le_self _ _
        calc ((b.toNat / q : Nat) : Int) * (q : Int) = ((b.toNat / q * q : Nat) : Int) := by push_cast; ring
          _ ≤ ((b.toNat : Nat) : Int) := by exact_mod_cast h1
          _ = b := hbcast
      · rw [hendmid _ (by omega), hqdef]
        have h2 : b.toNat < (b.toNat / q + 1) * q := by
          have hmod := Nat.div_add_mod b.toNat q
          have hmlt : b.toNat % q < q := Nat.mod_lt _ (by omega)
          nlinarith
        have h2i : ((b.toNat : Nat) : Int) < (((b.toNat / q + 1) * q : Nat) : Int) := by exact_mod_cast h2
        rw [hbcast] at h2i
        push_cast at h2i ⊢
        omega
    · -- use the last part
      refine ⟨N - 1, by omega, ?_, ?_⟩
      · rw [hstart _ (by omega), hqdef]
        have h1 : (N - 1) * q ≤ b.toNat / q * q := Nat.mul_le_mul_right q hbig
        have h2 : b.toNat / q * q ≤ b.toNat := Nat.div_mul_le_self _ _
        have h3 : (N - 1) * q ≤ b.toNat := le_trans h1 h2
        have h3i : (((N - 1) * q : Nat) : Int) ≤ b := by rw [← hbcast]; exact_mod_cast h3
        have hcastN : ((N - 1 : Nat) : Int) = n - 1 := by omega
        calc ((N - 1 : Nat) : Int) * (q : Int) = (((N-1) * q : Nat) : Int) := by push_cast; ring
          _ ≤ b := h3i
      · rw [hendlast]
        omega

/-- Witness for C2 at the spec's own example `total_size = 103`, `N = 5`:
the hypotheses hold and the final range ends at byte `102`. -/
theorem C2_createNewProgress_partition_witness :
    ((CreateNewProgress "http://example.com/f.bin" "a.bin" 103 5).part 4).End = 102 := by
  have h := (C2_createNewProgress_partition "http://example.com/f.bin" "a.bin" 103 5
    (by decide) (by decide) (by decide)).2.2.2.1
  norm_num at h
  exact h

/-! ### Progress store: `SaveProgress` -/

/-- A filesystem operation, used to record what the progress store does on
disk.  `writeFile` is Go's `os.WriteFile` (a direct, non-atomic write of the
full content to the named path); `rename` is `os.Rename`. -/
inductive FsOp where
  | writeFile (path : String) (content : String)
  | rename (src dst : String)
deriving DecidableEq, Repr

/-- JSON rendering of one `Part`, following the field order and names of the
Go struct tags (`json.MarshalIndent` with two-space indentation). -/
def marshalPart (indent : String) (p : Part) : String :=
  indent ++ "\x7b\n"
    ++ indent ++ "  \"index\": " ++ toString p.Index ++ ",\n"
    ++ indent ++ "  \"start\": " ++ toString p.Start ++ ",\n"
    ++ indent ++ "  \"end\": " ++ toString p.End ++ ",\n"
    ++ indent ++ "  \"downloaded\": " ++ toString p.Downloaded ++ ",\n"
    ++ indent ++ "  \"done\": " ++ (if p.Done then "true" else "false") ++ "\n"
    ++ indent ++ "\x7d"

/-- JSON rendering of a `Progress` record, following the Go struct tags:
`json.MarshalIndent(progress, "", "  ")` in `SaveProgress`. -/
def marshalProgress (p : Progress) : String :=
  "\x7b\n"
    ++ "  \"url\": \"" ++ p.URL ++ "\",\n"
    ++ "  \"filename\": \"" ++ p.Filename ++ "\",\n"
    ++ "  \"total_size\": " ++ toString p.TotalSize ++ ",\n"
    ++ "  \"parts\": [\n"
    ++ String.intercalate ",\n" (p.Parts.map (marshalPart "    "))
    ++ "\n  ],\n"
    ++ "  \"num_threads\": " ++ toString p.NumThreads ++ "\n"
    ++ "\x7d"

/-- `SaveProgress` from the downloader package, as the trace of filesystem
operations it performs: it marshals the progress record and calls
`os.WriteFile(filename, data, 0644)` - a single direct write to the target
path, with no temporary file and no rename. -/
def SaveProgress (filename : String) (progress : Progress) : List FsOp :=
  [FsOp.writeFile filename (marshalProgress progress)]

/-- Spec-side predicate, written from the spec's words for comparison with
`SaveProgress`: a save trace is atomic when it never writes the target path
directly, and instead writes a temporary sibling file and renames it over the
target. -/
def AtomicSaveSpec (target : String) (ops : List FsOp) : Prop :=
  (∀ c, FsOp.writeFile target c ∉ ops)
    ∧ ∃ tmp c, tmp ≠ target ∧ FsOp.writeFile tmp c ∈ ops
        ∧ FsOp.rename tmp target ∈ ops

/-- Claim C4 counterexample: `SaveProgress` does not follow the
write-temporary-then-rename discipline the claim describes; at a concrete
plan its trace contains no rename at all, only a direct write of the target
path. -/
theorem C4_saveProgress_not_atomic_counterexample :
    ¬ AtomicSaveSpec "download_state.json"
        (SaveProgress "download_state.json"
          (CreateNewProgress "http://example.com/f.bin" "a.bin" 103 5)) := by
  rintro ⟨-, tmp, c, -, -, hr⟩
  simp [SaveProgress] at hr

/-- Claim C4 (amended): `SaveProgress` persists the plan with a single,
direct `os.WriteFile` of the marshalled JSON to the target path; no temporary
sibling file is written and no rename is performed, so rename-based atomicity
against concurrent readers is not provided. -/
theorem C4_saveProgress_direct_write (filename : String) (progress : Progress) :
    SaveProgress filename progress
      = [FsOp.writeFile filename (marshalProgress progress)] := rfl

/-! ### `VerifyDownload` -/

/-- `VerifyDownload` from the downloader package.  `statSize` is the result
of `os.Stat(d.Progress.Filename)`: `some size` on success, `none` when `Stat`
fails.  The returned pair is the Go `error` result (`Except.ok ()` for a
`nil` error) together with whether the progress file was removed
(`os.Remove(d.ProgressFile)`). -/
def VerifyDownload (p : Progress) (statSize : Option Int) : Except String Unit × Bool :=
  if p.IsComplete then
    match statSize with
    | some size =>
      if size = p.TotalSize then (Except.ok (), true)
      else (Except.error "file size mismatch", false)
    | none => (Except.ok (), false)
  else (Except.error "download incomplete", false)

/-- Claim C6: `VerifyDownload` returns success and deletes the progress-store
file if and only if every range is done and the stat size of the output file
equals `TotalSize`; on a size mismatch or any range still undone it returns
an error and the progress file is retained. -/
theorem C6_verifyDownload_success_iff (p : Progress) (statSize : Option Int) :
    (((VerifyDownload p statSize).1 = Except.ok () ∧ (VerifyDownload p statSize).2 = true)
      ↔ (p.IsComplete = true ∧ statSize = some p.TotalSize))
    ∧ ((p.IsComplete = false ∨ (∃ s, statSize = some s ∧ s ≠ p.TotalSize)) →
        (∃ e, (VerifyDownload p statSize).1 = Except.error e)
          ∧ (VerifyDownload p statSize).2 = false) := by
  unfold VerifyDownload
  cases hc : p.IsComplete <;> rcases statSize with - | s <;> simp_all <;>
    rcases eq_or_ne s p.TotalSize with h | h <;> simp_all

/-- Witness for C6: a one-part plan whose only part is not done, with a
failed stat, yields an error and keeps the progress file. -/
theorem C6_verifyDownload_success_iff_witness :
    (∃ e, (VerifyDownload
        { URL := "u", Filename := "f", TotalSize := 10,
          Parts := [{ Index := 0, Start := 0, End := 9, Downloaded := 0, Done := false }],
          NumThreads := 1 } none).1 = Except.error e)
      ∧ (VerifyDownload
        { URL := "u", Filename := "f", TotalSize := 10,
          Parts := [{ Index := 0, Start := 0, End := 9, Downloaded := 0, Done := false }],
          NumThreads := 1 } none).2 = false :=
  (C6_verifyDownload_success_iff _ none).2 (Or.inl rfl)

/-! ### The copy loop of `downloadPart` -/

/-- One origin response consumed by an iteration of the retry loop of
`downloadPart`: its HTTP status, the byte counts of the successive successful
`resp.Body.Read` calls, and whether the stream ended with `io.EOF`
(`eof = true`) or with a mid-stream read/write error (`eof = false`). -/
structure RangeResponse where
  status : Nat
  chunks : List Nat
  eof : Bool
deriving DecidableEq, Repr

/-- The inner copy loop of `downloadPart`: every successful read of `n` bytes
is written to the file at the current offset and added to `part.Downloaded`
unconditionally (`atomic.AddInt64(&part.Downloaded, int64(written))`), with
no cap at the part's extent; when the stream ends with `io.EOF` the part is
marked done. -/
def copyBody (part : Part) (chunks : List Nat) (eof : Bool) : Part :=
  match chunks with
  | [] => if eof then { part with Done := true } else part
  | n :: rest => copyBody { part with Downloaded := part.Downloaded + (n : Int) } rest eof

/-- One iteration of the retry loop of `downloadPart` on one origin response:
if the part is already done nothing happens; if the recomputed start is past
the extent the part is marked done; a status other than `206` or `200` is a
transient error (retry, no change); otherwise the whole response body is
copied, and the part is marked done when the copy ended in `io.EOF` or
`Downloaded` reached the extent size. -/
def downloadPartIter (part : Part) (resp : RangeResponse) : Part :=
  if part.Done then part
  else if part.Start + part.Downloaded > part.End then { part with Done := true }
  else if resp.status ≠ 206 ∧ resp.status ≠ 200 then part
  else
    let d := copyBody part resp.chunks resp.eof
    if d.Done ∨ d.Downloaded ≥ part.End - part.Start + 1 then { d with Done := true } else d

/-- Claim C3 evaluated at the failing input: the part `[0..19]` of a
103-byte plan receives a `200 OK` answer carrying the whole remaining body
(one 103-byte read, then `io.EOF`); the copy loop adds all 103 bytes to
`Downloaded`, which ends at `103`, strictly above the extent size
`End - Start + 1 = 20` that the claim says is never exceeded. -/
theorem C3_downloadPart_bound_violated :
    (downloadPartIter
        { Index := 0, Start := 0, End := 19, Downloaded := 0, Done := false }
        { status := 200, chunks := [103], eof := true }).Downloaded = 103
    ∧ ¬ ((downloadPartIter
        { Index := 0, Start := 0, End := 19, Downloaded := 0, Done := false }
        { status := 200, chunks := [103], eof := true }).Downloaded ≤ 19 - 0 + 1) := by
  decide

/-! ### `SupportsRange` (the range probe) -/

/-- An origin HTTP response as seen by `SupportsRange`: status code,
`resp.ContentLength`, and the `Accept-Ranges` and `Content-Range` headers. -/
structure HttpResponse where
  status : Nat
  contentLength : Int
  acceptRanges : String
  contentRange : String
deriving DecidableEq, Repr

/-- The kind of origin request `SupportsRange` issues. -/
inductive ProbeReq where
  | head
  | rangedGet
  | fullGet
deriving DecidableEq, Repr

/-- The origin's behaviour during one probe: the response to each request
kind, `none` meaning the request itself failed at the transport level
(`client.Head` / `client.Do` / `client.Get` returned a non-nil error). -/
structure ProbeEnv where
  headResp : Option HttpResponse
  rangedResp : Option HttpResponse
  fullResp : Option HttpResponse
deriving DecidableEq, Repr

/-- `fmt.Sscanf(contentRange, "bytes %d-%d/%d", &start, &end, &total)`
requiring all three items, as used on the `Content-Range` header in the
`206 Partial Content` fallback branch of `SupportsRange`. -/
def parseContentRange (s : String) : Option (Int × Int × Int) :=
  if s.startsWith "bytes " then
    match (s.drop 6).splitOn "/" with
    | [range, total] =>
      match range.splitOn "-" with
      | [a, b] =>
        match a.toInt?, b.toInt?, total.toInt? with
        | some x, some y, some z => some (x, y, z)
        | _, _, _ => none
      | _ => none
    | _ => none
  else none

/-- The tail of `SupportsRange`'s HEAD-failure branch: when no positive
length was obtained from the ranged GET, issue an unranged full GET and take
its `ContentLength` if it answers `200 OK`; then apply the final
`length <= 0` check shared by all paths. -/
def probeFinish (env : ProbeEnv) (supports : Bool) (length : Int)
    (reqs : List ProbeReq) : Except String (Bool × Int) × List ProbeReq :=
  if length ≤ 0 then
    match env.fullResp with
    | none => (Except.error "failed to get file size", reqs ++ [ProbeReq.fullGet])
    | some r2 =>
      let length2 := if r2.status = 200 then r2.contentLength else length
      if length2 ≤ 0 then
        (Except.error "server did not provide content length", reqs ++ [ProbeReq.fullGet])
      else (Except.ok (supports, length2), reqs ++ [ProbeReq.fullGet])
  else (Except.ok (supports, length), reqs)

/-- `SupportsRange` from the downloader package, returning the Go result
(`ok (supportsRanges, length)` or the error) together with the trace of
origin requests issued.  A HEAD transport failure falls back to a
`Range: bytes=0-1023` GET; a HEAD response with a non-`200` status returns an
error immediately. -/
def SupportsRange (env : ProbeEnv) : Except String (Bool × Int) × List ProbeReq :=
  match env.headResp with
  | some resp =>
    if resp.status ≠ 200 then
      (Except.error "server returned status", [ProbeReq.head])
    else if resp.contentLength ≤ 0 then
      (Except.error "server did not provide content length", [ProbeReq.head])
    else (Except.ok (resp.acceptRanges = "bytes", resp.contentLength), [ProbeReq.head])
  | none =>
    match env.rangedResp with
    | none => (Except.error "failed to make GET request", [ProbeReq.head, ProbeReq.rangedGet])
    | some resp =>
      if resp.status = 206 then
        let length := match parseContentRange resp.contentRange with
          | some (_, _, total) => total
          | none => 0
        probeFinish env true length [ProbeReq.head, ProbeReq.rangedGet]
      else if resp.status = 200 then
        probeFinish env false resp.contentLength [ProbeReq.head, ProbeReq.rangedGet]
      else (Except.error "server returned status", [ProbeReq.head, ProbeReq.rangedGet])

/-- The probe environment of the C7 counterexample: the origin answers the
HEAD request with a `404` status and would happily answer a ranged GET. -/
def probeEnv404 : ProbeEnv where
  headResp := some
    { status := 404, contentLength := 4096,
      acceptRanges := "bytes", contentRange := "" }
  rangedResp := some
    { status := 206, contentLength := 1024,
      acceptRanges := "bytes", contentRange := "bytes 0-1023/4096" }
  fullResp := none

lemma probeFinish_ok_pos (env : ProbeEnv) (supports : Bool) (length : Int)
    (reqs : List ProbeReq) (s : Bool) (l : Int)
    (h : (probeFinish env supports length reqs).1 = Except.ok (s, l)) : 0 < l := by
  rcases henv : env.fullResp with - | r2 <;>
    unfold probeFinish at h <;> rw [henv] at h <;> dsimp only at h
  · split_ifs at h with h1
    simp only [Except.ok.injEq, Prod.mk.injEq] at h
    omega
  · split_ifs at h with h1 h2 <;>
      simp only [Except.ok.injEq, Prod.mk.injEq] at h <;> omega

lemma probeFinish_trace_mem (env : ProbeEnv) (supports : Bool) (length : Int)
    (reqs : List ProbeReq) (x : ProbeReq) (hx : x ∈ reqs) :
    x ∈ (probeFinish env supports length reqs).2 := by
  rcases henv : env.fullResp with - | r2 <;>
    unfold probeFinish <;> rw [henv] <;> dsimp only <;> split_ifs <;>
    simp_all [List.mem_append]

/-- Claim C7 counterexample: when the origin answers the HEAD request with a
non-success `404` status, `SupportsRange` fails immediately and never issues
the 1-KiB ranged GET fallback the claim promises. -/
theorem C7_head_status_no_fallback_counterexample :
    (SupportsRange probeEnv404).1 = Except.error "server returned status"
      ∧ ProbeReq.rangedGet ∉ (SupportsRange probeEnv404).2 :=
  ⟨rfl, by decide⟩

/-- Claim C7 (amended): `SupportsRange` fails when the origin returns a
non-success status or no parseable positive total length, and any successful
probe reports a positive length; the 1-KiB ranged GET fallback is issued
only when the HEAD request itself fails at the transport level — a HEAD
response with a non-success status fails immediately, with no fallback. -/
theorem C7_supportsRange_probe (env : ProbeEnv) :
    (∀ r, env.headResp = some r → r.status ≠ 200 →
      SupportsRange env = (Except.error "server returned status", [ProbeReq.head]))
    ∧ (env.headResp = none → ProbeReq.rangedGet ∈ (SupportsRange env).2)
    ∧ (∀ supports length, (SupportsRange env).1 = Except.ok (supports, length) → 0 < length)
    ∧ (∀ r, env.headResp = some r → r.status = 200 → r.contentLength ≤ 0 →
      SupportsRange env
        = (Except.error "server did not provide content length", [ProbeReq.head])) := by
  refine ⟨?_, ?_, ?_, ?_⟩
  · intro r hr hst
    unfold SupportsRange
    rw [hr]
    simp [hst]
  · intro hr
    unfold SupportsRange
    rw [hr]
    rcases hq : env.rangedResp with - | resp
    · simp
    · dsimp only
      by_cases h206 : resp.status = 206
      · simp only [h206, if_true]
        exact probeFinish_trace_mem env true _ _ _ (by simp)
      · by_cases h200 : resp.status = 200 <;>
          simp only [h206, h200, if_true, if_false]
        · exact probeFinish_trace_mem env false _ _ _ (by simp)
        · simp
  · intro supports length h
    unfold SupportsRange at h
    rcases hr : env.headResp with - | resp <;> rw [hr] at h
    · rcases hq : env.rangedResp with - | resp <;> rw [hq] at h
      · simp at h
      · dsimp only at h
        split_ifs at h
        all_goals first
          | exact probeFinish_ok_pos _ _ _ _ _ _ h
          | simp at h
    · dsimp only at h
      split_ifs at h
      all_goals first
        | (simp only [Except.ok.injEq, Prod.mk.injEq] at h
           obtain ⟨-, h2⟩ := h
           omega)
        | simp at h
  · intro r hr hst hlen
    unfold SupportsRange
    rw [hr]
    simp [hst, hlen]

/-- Witness for C7: at the `404`-HEAD environment the first conjunct applies
and yields the immediate failure with a HEAD-only trace. -/
theorem C7_supportsRange_probe_witness :
    SupportsRange probeEnv404
      = (Except.error "server returned status", [ProbeReq.head]) :=
  (C7_supportsRange_probe probeEnv404).1
    { status := 404, contentLength := 4096,
      acceptRanges := "bytes", contentRange := "" } rfl (by decide)

end Downloader

namespace Queue

/-- `JobProcessingTimeout = 30 * time.Minute`, in nanoseconds. -/
def JobProcessingTimeout : Nat := 1800000000000

/-- `QueuePollTimeout = 10 * time.Second`, in nanoseconds. -/
def QueuePollTimeout : Nat := 10000000000

/-- A job in the queue, from `type DownloadJob struct` in queue.go.
`time.Time` fields are nanoseconds since the epoch; the Go zero time is 0. -/
structure DownloadJob where
  ID : String
  URL : String
  OutputPath : String
  Threads : Int
  CreatedAt : Nat
  StartedAt : Nat
  WorkerID : String
deriving DecidableEq, Repr

/-- The status of a job, from `type JobStatus struct` in queue.go.  The
`float64` progress is embedded as `Rat` (only stored, never computed with). -/
structure JobStatus where
  ID : String
  Status : String
  Progress : Rat
  BytesDownloaded : Int
  TotalBytes : Int
  ErrorMessage : String
  CreatedAt : Nat
  StartedAt : Nat
  CompletedAt : Nat
  WorkerID : String
deriving DecidableEq, Repr

/-- The Go zero value of `JobStatus`; a Go composite literal
`&JobStatus{F1: v1, ...}` is `{ zeroStatus with F1 := v1, ... }`. -/
def zeroStatus : JobStatus :=
  { ID := "", Status := "", Progress := 0, BytesDownloaded := 0, TotalBytes := 0,
    ErrorMessage := "", CreatedAt := 0, StartedAt := 0, CompletedAt := 0, WorkerID := "" }

/-- The Redis state behind `QueueManager`: the four lists
(`download_jobs` = pending, `processing_jobs` = in-flight, `completed_jobs`,
`failed_jobs`; the head of each list is the front, `LPUSH` prepends,
`BRPOPLPUSH` pops the source's tail) and the `job_status:{id}` key/value
entries.  List elements are kept as unmarshalled `DownloadJob` values:
serialized equality of well-formed entries is value equality. -/
structure QueueState where
  pending : List DownloadJob
  inFlight : List DownloadJob
  completed : List DownloadJob
  failed : List DownloadJob
  statuses : String → Option JobStatus

/-- The status key pattern `job_status:{id}`. -/
def statusKey (id : String) : String := "job_status:" ++ id

/-- `SetJobStatus`: `SET job_status:{status.ID}` (the 30-day TTL is not
modelled). -/
def SetJobStatus (sts : String → Option JobStatus) (status : JobStatus) :
    String → Option JobStatus :=
  fun k => if k = statusKey status.ID then some status else sts k

/-- `EnqueueJob`: stamp `CreatedAt = now`, `LPUSH download_jobs`, and set the
initial status entry to `queued`. -/
def EnqueueJob (s : QueueState) (job : DownloadJob) (now : Nat) : QueueState :=
  let job2 := { job with CreatedAt := now }
  let st := { zeroStatus with ID := job2.ID, Status := "queued", CreatedAt := now }
  { s with pending := job2 :: s.pending, statuses := SetJobStatus s.statuses st }

/-- `DequeueJob`: `BRPOPLPUSH download_jobs processing_jobs` atomically moves
the tail of `pending` to the head of `inFlight`; `none` when `pending` is
empty (poll timeout, `redis.Nil`).  The returned in-memory copy is stamped
with `StartedAt = now` and the worker id and the status entry is set to
`processing`, but the entry stored in `processing_jobs` is the serialized
value moved by `BRPOPLPUSH`, which keeps its old `StartedAt`/`WorkerID`. -/
def DequeueJob (s : QueueState) (workerID : String) (now : Nat) :
    Option DownloadJob × QueueState :=
  match s.pending.getLast? with
  | none => (none, s)
  | some jdata =>
    let s2 := { s with pending := s.pending.dropLast, inFlight := jdata :: s.inFlight }
    let job := { jdata with StartedAt := now, WorkerID := workerID }
    let st := { zeroStatus with
      ID := job.ID, Status := "processing",
      CreatedAt := job.CreatedAt, StartedAt := now, WorkerID := workerID }
    (some job, { s2 with statuses := SetJobStatus s2.statuses st })

/-- `removeFromProcessingQueue`: scan `LRANGE processing_jobs 0 -1` from the
head and `LREM` the first entry whose unmarshalled `ID` matches. -/
def removeFromProcessingQueue (l : List DownloadJob) (jobID : String) : List DownloadJob :=
  match l with
  | [] => []
  | x :: xs => if x.ID = jobID then xs else x :: removeFromProcessingQueue xs jobID

/-- `CompleteJob`: remove the job from `processing_jobs` and overwrite its
status entry with a fresh composite literal (`completed`, `CompletedAt`,
worker id, progress 100; every other field keeps its Go zero value).
Nothing is pushed onto `completed_jobs`. -/
def CompleteJob (s : QueueState) (jobID workerID : String) (now : Nat) : QueueState :=
  let st := { zeroStatus with
    ID := jobID, Status := "completed",
    CompletedAt := now, WorkerID := workerID, Progress := 100 }
  { s with inFlight := removeFromProcessingQueue s.inFlight jobID,
           statuses := SetJobStatus s.statuses st }

/-- `FailJob`: remove the job from `processing_jobs` and overwrite its status
entry with a fresh composite literal (`failed`, `CompletedAt`, worker id,
error message; every other field keeps its Go zero value).  Nothing is
pushed onto `failed_jobs`. -/
def FailJob (s : QueueState) (jobID workerID errorMsg : String) (now : Nat) : QueueState :=
  let st := { zeroStatus with
    ID := jobID, Status := "failed",
    CompletedAt := now, WorkerID := workerID, ErrorMessage := errorMsg }
  { s with inFlight := removeFromProcessingQueue s.inFlight jobID,
           statuses := SetJobStatus s.statuses st }

/-- `UpdateJobProgress`: `GET job_status:{jobID}`; when the key is missing
build a basic `processing` status, otherwise keep the unmarshalled entry;
set the three progress fields and `SET` it back. -/
def UpdateJobProgress (sts : String → Option JobStatus) (jobID : String)
    (progress : Rat) (bytesDownloaded totalBytes : Int) : String → Option JobStatus :=
  let status := match sts (statusKey jobID) with
    | none => { zeroStatus with ID := jobID, Status := "processing" }
    | some st => st
  let status2 := { status with
    Progress := progress, BytesDownloaded := bytesDownloaded, TotalBytes := totalBytes }
  SetJobStatus sts status2

/-- `GetQueueStats`: the `LLEN` of each of the four lists, plus their sum
under the key `total`. -/
def GetQueueStats (s : QueueState) : List (String × Int) :=
  [("queued", (s.pending.length : Int)),
   ("processing", (s.inFlight.length : Int)),
   ("completed", (s.completed.length : Int)),
   ("failed", (s.failed.length : Int)),
   ("total", (s.pending.length : Int) + (s.inFlight.length : Int)
     + (s.completed.length : Int) + (s.failed.length : Int))]

/-- `LREM processing_jobs 1 jobData`: remove the first occurrence of the
exact serialized value. -/
def removeFirstEntry : List DownloadJob → DownloadJob → List DownloadJob
  | [], _ => []
  | x :: xs, j => if x = j then xs else x :: removeFirstEntry xs j

/-- The body of the `CleanupStaleJobs` loop for one snapshot entry: if
`time.Since(jdata.StartedAt) > JobProcessingTimeout` the entry is `LREM`ed
from `processing_jobs`, its timing fields are reset, it is `LPUSH`ed back
onto `download_jobs`, and its status entry is reset to `queued`. -/
def reclaimOne (s : QueueState) (jdata : DownloadJob) (now : Nat) : QueueState :=
  if now - jdata.StartedAt > JobProcessingTimeout then
    let st := { zeroStatus with
      ID := jdata.ID, Status := "queued", CreatedAt := jdata.CreatedAt }
    { s with inFlight := removeFirstEntry s.inFlight jdata,
             pending := { jdata with StartedAt := 0, WorkerID := "" } :: s.pending,
             statuses := SetJobStatus s.statuses st }
  else s

/-- `CleanupStaleJobs`: snapshot `LRANGE processing_jobs 0 -1` and run
`reclaimOne` over every entry of the snapshot. -/
def CleanupStaleJobs (s : QueueState) (now : Nat) : QueueState :=
  s.inFlight.foldl (fun st jdata => reclaimOne st jdata now) s

/-- The empty Redis state. -/
def emptyQueue : QueueState :=
  { pending := [], inFlight := [], completed := [], failed := [],
    statuses := fun _ => none }

/-- The concrete job of the C1/C5 failing inputs, as built by the intake
handler (timing fields at their zero values). -/
def jobA : DownloadJob :=
  { ID := "job-1", URL := "http://example.com/f.bin", OutputPath := "a.bin",
    Threads := 4, CreatedAt := 0, StartedAt := 0, WorkerID := "" }

/-- A realistic wall-clock instant (nanoseconds since the epoch,
2023-11-14). -/
def t0 : Nat := 1700000000000000000

/-- One minute after `t0`. -/
def t1 : Nat := 1700000060000000000

/-- Claim C1 evaluated at the failing input: enqueue `job-1` at wall-clock
instant `t0` and reserve it at the very same instant; a `CleanupStaleJobs`
sweep, still at `t0`, already moves the entry back onto `pending` and resets
its status to `queued`, although the job was reserved moments (zero
nanoseconds) earlier.  The entry stored in `processing_jobs` kept
`StartedAt = 0` (the Go zero time) because `DequeueJob` stamps only its
in-memory copy, so `time.Since(StartedAt)` exceeds 30 minutes for any
realistic clock. -/
theorem C1_fresh_reservation_reclaimed :
    (CleanupStaleJobs (DequeueJob (EnqueueJob emptyQueue jobA t0) "worker-1" t0).2 t0).inFlight
      = []
    ∧ (CleanupStaleJobs (DequeueJob (EnqueueJob emptyQueue jobA t0) "worker-1" t0).2 t0).pending
      = [{ jobA with CreatedAt := t0 }]
    ∧ ((CleanupStaleJobs (DequeueJob (EnqueueJob emptyQueue jobA t0) "worker-1" t0).2
          t0).statuses (statusKey "job-1")).map (fun st => st.Status)
      = some "queued" := by
  refine ⟨by decide, by decide, by decide⟩

/-- Claim C5 evaluated at the failing input: enqueue `job-1`, reserve it and
complete it; afterwards the job's entry is in no list at all — in particular
not in the completed list — and every list length reported by
`GetQueueStats` is `0`, so the stats sum is `0` although one job was
enqueued. -/
theorem C5_completed_job_in_no_list :
    (CompleteJob (DequeueJob (EnqueueJob emptyQueue jobA t0) "worker-1" t0).2
        "job-1" "worker-1" t1).completed = []
    ∧ (CompleteJob (DequeueJob (EnqueueJob emptyQueue jobA t0) "worker-1" t0).2
        "job-1" "worker-1" t1).inFlight = []
    ∧ (CompleteJob (DequeueJob (EnqueueJob emptyQueue jobA t0) "worker-1" t0).2
        "job-1" "worker-1" t1).pending = []
    ∧ (CompleteJob (DequeueJob (EnqueueJob emptyQueue jobA t0) "worker-1" t0).2
        "job-1" "worker-1" t1).failed = []
    ∧ GetQueueStats (CompleteJob (DequeueJob (EnqueueJob emptyQueue jobA t0) "worker-1" t0).2
        "job-1" "worker-1" t1)
      = [("queued", 0), ("processing", 0), ("completed", 0), ("failed", 0), ("total", 0)] := by
  refine ⟨by decide, by decide, by decide, by decide, by decide⟩

/-- Claim C9: `UpdateJobProgress` is a read-modify-write of the job's status
entry that changes only `Progress`, `BytesDownloaded` and `TotalBytes`,
preserving every other field, and leaves every other status key unchanged;
when the entry is missing it recreates one in state `processing`. -/
theorem C9_updateJobProgress_frame (sts : String → Option JobStatus) (jobID : String)
    (progress : Rat) (bytesDownloaded totalBytes : Int) :
    (∀ st, sts (statusKey jobID) = some st → st.ID = jobID →
      UpdateJobProgress sts jobID progress bytesDownloaded totalBytes (statusKey jobID)
        = some { st with
            Progress := progress, BytesDownloaded := bytesDownloaded,
            TotalBytes := totalBytes }
      ∧ ∀ k, k ≠ statusKey jobID →
          UpdateJobProgress sts jobID progress bytesDownloaded totalBytes k = sts k)
    ∧ (sts (statusKey jobID) = none →
      UpdateJobProgress sts jobID progress bytesDownloaded totalBytes (statusKey jobID)
        = some { zeroStatus with
            ID := jobID, Status := "processing",
            Progress := progress, BytesDownloaded := bytesDownloaded,
            TotalBytes := totalBytes }
      ∧ ∀ k, k ≠ statusKey jobID →
          UpdateJobProgress sts jobID progress bytesDownloaded totalBytes k = sts k) := by
  constructor
  · intro st hst hid
    unfold UpdateJobProgress
    rw [hst]
    constructor
    · simp [SetJobStatus, hid]
    · intro k hk
      simp only [SetJobStatus]
      rw [if_neg]
      simpa [hid] using hk
  · intro hnone
    unfold UpdateJobProgress
    rw [hnone]
    constructor
    · simp [SetJobStatus, zeroStatus]
    · intro k hk
      simp only [SetJobStatus]
      rw [if_neg]
      simpa [zeroStatus] using hk

/-- The pre-existing status entry of the C9 witness. -/
def statusB : JobStatus :=
  { ID := "job-9", Status := "processing", Progress := 10, BytesDownloaded := 100,
    TotalBytes := 1024, ErrorMessage := "", CreatedAt := 7, StartedAt := 9,
    CompletedAt := 0, WorkerID := "worker-2" }

/-- The status store of the C9 witness: exactly one entry, for `job-9`. -/
def storeB : String → Option JobStatus :=
  SetJobStatus (fun _ => none) statusB

/-- Witness for C9: updating `job-9` in `storeB` rewrites exactly the three
progress fields of its entry. -/
theorem C9_updateJobProgress_frame_witness :
    UpdateJobProgress storeB "job-9" 50 512 1024 (statusKey "job-9")
      = some { statusB with Progress := 50, BytesDownloaded := 512, TotalBytes := 1024 } := by
  have h := (C9_updateJobProgress_frame storeB "job-9" 50 512 1024).1 statusB (by rfl) (by rfl)
  exact h.1

/-- Claim C10: `CompleteJob` and `FailJob` overwrite the stored status entry
wholesale rather than read-modify-write: whatever was stored before, the
entry afterwards has `CreatedAt`, `StartedAt`, `BytesDownloaded` and
`TotalBytes` at their zero values, `CompletedAt = now`, the worker id set,
and status `completed` with progress 100 (for `CompleteJob`) or `failed`
with the error message (for `FailJob`). -/
theorem C10_terminal_status_overwrite (s : QueueState)
    (jobID workerID errorMsg : String) (now : Nat) :
    (CompleteJob s jobID workerID now).statuses (statusKey jobID)
      = some { ID := jobID, Status := "completed", Progress := 100,
               BytesDownloaded := 0, TotalBytes := 0, ErrorMessage := "",
               CreatedAt := 0, StartedAt := 0, CompletedAt := now, WorkerID := workerID }
    ∧ (FailJob s jobID workerID errorMsg now).statuses (statusKey jobID)
      = some { ID := jobID, Status := "failed", Progress := 0,
               BytesDownloaded := 0, TotalBytes := 0, ErrorMessage := errorMsg,
               CreatedAt := 0, StartedAt := 0, CompletedAt := now, WorkerID := workerID } := by
  constructor <;> simp [CompleteJob, FailJob, SetJobStatus, zeroStatus]

/-! ### The HTTP intake handler (`server_queue.go`) -/

/-- The JSON body of `POST /downloads`, from
`type QueuedDownloadRequest struct`; gin's `binding:"required"` rejects a
missing or empty `url`/`output`, and a missing `threads` unmarshals to 0. -/
structure QueuedDownloadRequest where
  URL : String
  Output : String
  Threads : Int
deriving DecidableEq, Repr

/-- The observable outcome of `enqueueDownloadHandler`: an HTTP 400 with an
error message, or the `DownloadJob` that gets enqueued. -/
inductive EnqueueResult where
  | badRequest (msg : String)
  | created (job : DownloadJob)
deriving DecidableEq, Repr

/-- `enqueueDownloadHandler` from server_queue.go: empty `url`/`output`
fail binding; `threads <= 0` defaults to 4; more than 16 threads is rejected
with `400 "Maximum 16 threads allowed"`; otherwise the job is built with the
requested thread count and enqueued. -/
def enqueueDownloadHandler (req : QueuedDownloadRequest) (jobID : String) : EnqueueResult :=
  if req.URL = "" ∨ req.Output = "" then EnqueueResult.badRequest "Invalid request body"
  else
    let threads := if req.Threads ≤ 0 then 4 else req.Threads
    if threads > 16 then EnqueueResult.badRequest "Maximum 16 threads allowed"
    else EnqueueResult.created
      { ID := jobID, URL := req.URL, OutputPath := req.Output, Threads := threads,
        CreatedAt := 0, StartedAt := 0, WorkerID := "" }

/-- Claim C8 counterexample: a request with `thread_count = 17` is refused
with HTTP 400, not accepted and clamped to 16 threads. -/
theorem C8_seventeen_threads_rejected_counterexample :
    enqueueDownloadHandler
        { URL := "http://example.com/f.bin", Output := "a.bin", Threads := 17 } "id-1"
      = EnqueueResult.badRequest "Maximum 16 threads allowed" := by
  decide

/-- Claim C8 (amended): `thread_count` defaults to 4 when absent or
non-positive; a request with more than 16 threads is refused with
`400 "Maximum 16 threads allowed"` rather than clamped; an accepted request
always carries a thread count in `[1, 16]`; `url` and `output_path` are
required non-empty. -/
theorem C8_enqueue_handler_validation (req : QueuedDownloadRequest) (jobID : String) :
    (req.URL = "" ∨ req.Output = "" →
      enqueueDownloadHandler req jobID = EnqueueResult.badRequest "Invalid request body")
    ∧ (req.URL ≠ "" → req.Output ≠ "" → req.Threads ≤ 0 →
      enqueueDownloadHandler req jobID = EnqueueResult.created
        { ID := jobID, URL := req.URL, OutputPath := req.Output, Threads := 4,
          CreatedAt := 0, StartedAt := 0, WorkerID := "" })
    ∧ (req.URL ≠ "" → req.Output ≠ "" → 0 < req.Threads → req.Threads ≤ 16 →
      enqueueDownloadHandler req jobID = EnqueueResult.created
        { ID := jobID, URL := req.URL, OutputPath := req.Output, Threads := req.Threads,
          CreatedAt := 0, StartedAt := 0, WorkerID := "" })
    ∧ (req.URL ≠ "" → req.Output ≠ "" → 16 < req.Threads →
      enqueueDownloadHandler req jobID = EnqueueResult.badRequest "Maximum 16 threads allowed")
    ∧ (∀ job, enqueueDownloadHandler req jobID = EnqueueResult.created job →
        1 ≤ job.Threads ∧ job.Threads ≤ 16) := by
  refine ⟨?_, ?_, ?_, ?_, ?_⟩
  · intro h
    simp [enqueueDownloadHandler, h]
  · intro hu ho ht
    have hno : ¬ (req.URL = "" ∨ req.Output = "") := by tauto
    simp only [enqueueDownloadHandler, hno, if_false, ht, if_true]
    norm_num
  · intro hu ho ht1 ht2
    have hno : ¬ (req.URL = "" ∨ req.Output = "") := by tauto
    have ht3 : ¬ (req.Threads ≤ 0) := by omega
    simp only [enqueueDownloadHandler, hno, if_false, ht3]
    rw [if_neg (by omega)]
  · intro hu ho ht
    have hno : ¬ (req.URL = "" ∨ req.Output = "") := by tauto
    have ht3 : ¬ (req.Threads ≤ 0) := by omega
    simp only [enqueueDownloadHandler, hno, if_false, ht3]
    rw [if_pos (by omega)]
  · intro job h
    unfold enqueueDownloadHandler at h
    split_ifs at h with h1 h2
    all_goals
      dsimp only at h
    all_goals
      split_ifs at h with h3
    all_goals first
      | (simp only [EnqueueResult.created.injEq] at h
         have hth := congrArg DownloadJob.Threads h
         dsimp only at hth
         omega)
      | simp at h

/-- Witness for C8: a request with `threads = 0` is accepted and defaults to
4 threads. -/
theorem C8_enqueue_handler_validation_witness :
    enqueueDownloadHandler
        { URL := "http://example.com/f.bin", Output := "a.bin", Threads := 0 } "id-2"
      = EnqueueResult.created
        { ID := "id-2", URL := "http://example.com/f.bin", OutputPath := "a.bin",
          Threads := 4, CreatedAt := 0, StartedAt := 0, WorkerID := "" } :=
  (C8_enqueue_handler_validation
    { URL := "http://example.com/f.bin", Output := "a.bin", Threads := 0 } "id-2").2.1
    (by decide) (by decide) (by decide)

end Queue
